import Mathlib

/-!
Verification of the WealthWise dashboard aggregation and goal pacing engine.

Shallow embedding of the computational core of the repository:
  - the dashboard summary computation in src/server/routes.ts (lines 209-265):
    totals, category grouping, percentages, trend, highest category, goal pacing;
  - the currency conversion function convertCurrency in src/server/storage.ts
    (lines 420-429) and the CURRENCY_OPTIONS table in src/shared/schema.ts.

Monetary amounts (doublePrecision in the schema, IEEE doubles in JS) are
modelled as rationals; JS Math.floor, Math.ceil and Math.round correspond to
Int.floor, Int.ceil and round (round x = floor (x + 1/2), which matches the
JS Math.round behaviour of rounding halves toward positive infinity), and
toFixed(2) followed by parseFloat corresponds to round2 below.
-/

namespace WealthWise

/-- An expense record as consumed by the aggregation: only amount and category
are read by the dashboard computation (date filtering happens in the store). -/
structure Expense where
  amount : ℚ
  category : String
deriving DecidableEq, Repr

/-- An income record; only the amount is read by the aggregation. -/
structure Income where
  amount : ℚ
deriving DecidableEq, Repr

/-- A savings goal; deadlineTime is the epoch timestamp in milliseconds
(deadline.getTime() in the source). The name feeds only the description
string, which is presentation and not modelled. -/
structure SavingsGoal where
  name : Option String
  targetAmount : ℚ
  deadlineTime : ℚ
deriving DecidableEq, Repr

/-- incomeAmount = income?.amount || 0  (routes.ts line 213; an absent income
or a zero amount both give 0). -/
def incomeAmountOf (income : Option Income) : ℚ :=
  (income.map Income.amount).getD 0

/-- totalExpenses = expenses.reduce((sum, e) => sum + e.amount, 0)
(routes.ts line 209). -/
def totalExpenses (expenses : List Expense) : ℚ :=
  expenses.foldl (fun s e => s + e.amount) 0

/-- One step of the category grouping fold (routes.ts lines 221-228): a JS
object keyed by strings keeps insertion order, so it is modelled as an
association list where a new category is appended at the end and an existing
category is updated in place. -/
def addToCategory (acc : List (String × ℚ)) (cat : String) (amt : ℚ) :
    List (String × ℚ) :=
  match acc with
  | [] => [(cat, amt)]
  | (c, a) :: rest =>
      if c = cat then (c, a + amt) :: rest
      else (c, a) :: addToCategory rest cat amt

/-- expensesByCategory = expenses.reduce(..., {}) (routes.ts lines 221-228). -/
def expensesByCategory (expenses : List Expense) : List (String × ℚ) :=
  expenses.foldl (fun acc e => addToCategory acc e.category e.amount) []

/-- percentOfIncome = incomeAmount > 0 ? Math.round(totalExpenses / incomeAmount * 100) : 0
(routes.ts line 231). -/
def percentOfIncome (incomeAmount total : ℚ) : ℤ :=
  if 0 < incomeAmount then round (total / incomeAmount * 100) else 0

/-- savingsPercentOfIncome = incomeAmount > 0 ? Math.round(netSavings / incomeAmount * 100) : 0
(routes.ts line 232). -/
def savingsPercentOfIncome (incomeAmount netSavings : ℚ) : ℤ :=
  if 0 < incomeAmount then round (netSavings / incomeAmount * 100) else 0

/-- One step of the highest-category scan (routes.ts lines 238-243): the
current best is replaced only on a strictly greater amount, so on ties the
earlier entry is kept. -/
def highestStep (best p : String × ℚ) : String × ℚ :=
  if best.2 < p.2 then p else best

/-- The highest-category scan (routes.ts lines 235-243): fold over the entries
of expensesByCategory in insertion order, starting from the empty category and
amount 0. -/
def findHighest (entries : List (String × ℚ)) : String × ℚ :=
  entries.foldl highestStep ("", 0)

/-- percentComplete = Math.min(100, Math.floor(saved / targetAmount * 100))
(routes.ts line 250). -/
def percentComplete (saved targetAmount : ℚ) : ℤ :=
  min 100 ⌊saved / targetAmount * 100⌋

/-- daysLeft = Math.floor((deadline.getTime() - now.getTime()) / (1000*60*60*24))
(routes.ts line 252); times are in milliseconds, one day is 86400000 ms. -/
def daysLeft (deadlineTime now : ℚ) : ℤ :=
  ⌊(deadlineTime - now) / 86400000⌋

/-- monthsLeft = Math.max(1, Math.ceil(daysLeft / 30)) (routes.ts line 253). -/
def monthsLeft (d : ℤ) : ℤ :=
  max 1 ⌈(d : ℚ) / 30⌉

/-- The goal progress object assembled in routes.ts lines 256-264 (the
presentation-only description string is not modelled). -/
structure GoalProgress where
  savedAmount : ℚ
  targetAmount : ℚ
  percentComplete : ℤ
  daysLeft : ℤ
  monthsLeft : ℤ
  monthlySavingsNeeded : ℚ
  onTrack : Bool
deriving DecidableEq, Repr

/-- Goal pacing calculation (routes.ts lines 246-265): runs only when a goal
is present; saved is the net savings of the current month. -/
def computeGoalProgress (goal : Option SavingsGoal) (netSavings : ℚ)
    (now : ℚ) : Option GoalProgress :=
  goal.map fun g =>
    let saved := netSavings
    let target := g.targetAmount
    let pc := percentComplete saved target
    let dl := daysLeft g.deadlineTime now
    let ml := monthsLeft dl
    let msn := (target - saved) / (ml : ℚ)
    ⟨saved, target, pc, dl, ml, msn, decide (netSavings ≥ msn)⟩

/-- The dashboard summary fields computed in routes.ts lines 209-290. -/
structure DashboardResult where
  incomeAmount : ℚ
  totalExpenses : ℚ
  previousTotalExpenses : ℚ
  netSavings : ℚ
  previousNetSavings : ℚ
  savingsTrend : ℚ
  expensesByCategory : List (String × ℚ)
  percentOfIncome : ℤ
  savingsPercentOfIncome : ℤ
  highestCategory : String
  highestAmount : ℚ
  goal : Option GoalProgress
deriving DecidableEq, Repr

/-- The dashboard aggregation (routes.ts lines 209-290), a total function of
the fetched income, the current and previous month expense lists, the optional
savings goal, and the current time in epoch milliseconds. -/
def dashboard (income : Option Income) (expenses prevExpenses : List Expense)
    (goal : Option SavingsGoal) (now : ℚ) : DashboardResult :=
  let total := totalExpenses expenses
  let prevTotal := totalExpenses prevExpenses
  let incomeAmount := incomeAmountOf income
  let netSavings := incomeAmount - total
  let previousNetSavings := incomeAmount - prevTotal
  let savingsTrend := netSavings - previousNetSavings
  let byCat := expensesByCategory expenses
  let highest := findHighest byCat
  ⟨incomeAmount, total, prevTotal, netSavings, previousNetSavings,
   savingsTrend, byCat, percentOfIncome incomeAmount total,
   savingsPercentOfIncome incomeAmount netSavings,
   highest.1, highest.2, computeGoalProgress goal netSavings now⟩

/-- The closed set of supported currencies (shared/schema.ts CURRENCY_OPTIONS). -/
inductive Currency where
  | USD
  | EUR
  | LKR
deriving DecidableEq, Repr

open Currency

/-- The pairwise conversion rates of CURRENCY_OPTIONS
(shared/schema.ts lines 113-117). -/
def conversionRate : Currency → Currency → ℚ
  | USD, USD => 1
  | USD, EUR => 95 / 100
  | USD, LKR => 300
  | EUR, USD => 105 / 100
  | EUR, EUR => 1
  | EUR, LKR => 330
  | LKR, USD => 1 / 300
  | LKR, EUR => 1 / 330
  | LKR, LKR => 1

/-- parseFloat(x.toFixed(2)): rounding to two decimal places. -/
def round2 (q : ℚ) : ℚ :=
  (round (q * 100) : ℤ) / 100

/-- convertCurrency (storage.ts lines 420-429): returns the amount unchanged
when the two currencies are equal, otherwise multiplies by the rate and rounds
to two decimal places. -/
def convertCurrency (amount : ℚ) (fromCurrency toCurrency : Currency) : ℚ :=
  if fromCurrency = toCurrency then amount
  else round2 (amount * conversionRate fromCurrency toCurrency)

/-! Helper lemmas about rounding, the category grouping fold and the
highest-category scan. -/

/-- If q times 100 is an integer then rounding q to two decimals is the
identity. -/
lemma round2_of_mul_int (q : ℚ) (n : ℤ) (h : q * 100 = (n : ℚ)) :
    round2 q = q := by
  unfold round2
  rw [h, round_intCast, ← h]
  ring

/-- Rounding to two decimals is idempotent. -/
lemma round2_round2 (q : ℚ) : round2 (round2 q) = round2 q :=
  round2_of_mul_int _ (round (q * 100)) (by unfold round2; ring)

/-- Folding the expense sum starting from any accumulator. -/
lemma foldl_add_amount (es : List Expense) : ∀ c : ℚ,
    es.foldl (fun s e => s + e.amount) c = c + totalExpenses es := by
  induction es with
  | nil => intro c; simp [totalExpenses]
  | cons e rest ih =>
      intro c
      simp only [totalExpenses, List.foldl_cons] at *
      rw [ih (c + e.amount), ih (0 + e.amount)]
      ring

/-- Adding an amount to a category increases the sum of the grouped values by
exactly that amount. -/
lemma sum_addToCategory (cat : String) (amt : ℚ) : ∀ acc : List (String × ℚ),
    ((addToCategory acc cat amt).map Prod.snd).sum
      = (acc.map Prod.snd).sum + amt := by
  intro acc
  induction acc with
  | nil => simp [addToCategory]
  | cons p rest ih =>
      obtain ⟨c, a⟩ := p
      by_cases h : c = cat
      · simp [addToCategory, h]
        ring
      · simp [addToCategory, h, ih]
        ring

/-- The grouped category sums add up to the total of the expense list. -/
lemma sum_expensesByCategory (es : List Expense) :
    ((expensesByCategory es).map Prod.snd).sum = totalExpenses es := by
  suffices h : ∀ acc : List (String × ℚ),
      ((es.foldl (fun acc e => addToCategory acc e.category e.amount) acc).map
        Prod.snd).sum = (acc.map Prod.snd).sum + totalExpenses es by
    have := h []
    simpa [expensesByCategory] using this
  induction es with
  | nil => intro acc; simp [totalExpenses]
  | cons e rest ih =>
      intro acc
      simp only [List.foldl_cons]
      rw [ih, sum_addToCategory]
      have : totalExpenses (e :: rest) = e.amount + totalExpenses rest := by
        show (e :: rest).foldl (fun s e => s + e.amount) 0 = _
        rw [List.foldl_cons, foldl_add_amount]
        ring
      rw [this]
      ring

/-- The category grouping step never produces an empty list. -/
lemma addToCategory_ne_nil (acc : List (String × ℚ)) (cat : String) (amt : ℚ) :
    addToCategory acc cat amt ≠ [] := by
  cases acc with
  | nil => simp [addToCategory]
  | cons p rest =>
      obtain ⟨c, a⟩ := p
      by_cases h : c = cat <;> simp [addToCategory, h]

/-- Grouping a nonempty expense list yields a nonempty association list. -/
lemma expensesByCategory_ne_nil (es : List Expense) (h : es ≠ []) :
    expensesByCategory es ≠ [] := by
  suffices haux : ∀ (l : List Expense) (acc : List (String × ℚ)), acc ≠ [] →
      l.foldl (fun acc e => addToCategory acc e.category e.amount) acc ≠ [] by
    cases es with
    | nil => exact absurd rfl h
    | cons e rest =>
        simp only [expensesByCategory, List.foldl_cons]
        exact haux rest _ (addToCategory_ne_nil [] e.category e.amount)
  intro l
  induction l with
  | nil => intro acc hacc; simpa using hacc
  | cons e rest ih =>
      intro acc hacc
      simp only [List.foldl_cons]
      exact ih _ (addToCategory_ne_nil acc e.category e.amount)

/-- Values accumulated by the grouping step stay positive when the added
amount is positive. -/
lemma addToCategory_pos (cat : String) (amt : ℚ) (hamt : 0 < amt) :
    ∀ acc : List (String × ℚ), (∀ p ∈ acc, 0 < p.2) →
      ∀ p ∈ addToCategory acc cat amt, 0 < p.2 := by
  intro acc
  induction acc with
  | nil =>
      intro _ p hp
      simp only [addToCategory, List.mem_singleton] at hp
      simpa [hp] using hamt
  | cons q rest ih =>
      obtain ⟨c, a⟩ := q
      intro hacc p hp
      by_cases h : c = cat
      · simp only [addToCategory, h, if_pos] at hp
        rcases List.mem_cons.1 hp with rfl | hp
        · have ha : 0 < a := hacc (c, a) (List.mem_cons_self _ _)
          simpa using add_pos ha hamt
        · exact hacc p (List.mem_cons_of_mem _ hp)
      · simp only [addToCategory, h, if_neg, not_false_iff] at hp
        rcases List.mem_cons.1 hp with rfl | hp
        · exact hacc (c, a) (List.mem_cons_self _ _)
        · exact ih (fun r hr => hacc r (List.mem_cons_of_mem _ hr)) p hp

/-- All grouped category sums are positive when all expense amounts are. -/
lemma expensesByCategory_pos (es : List Expense)
    (h : ∀ e ∈ es, 0 < e.amount) :
    ∀ p ∈ expensesByCategory es, 0 < p.2 := by
  suffices haux : ∀ (l : List Expense), (∀ e ∈ l, 0 < e.amount) →
      ∀ acc : List (String × ℚ), (∀ p ∈ acc, 0 < p.2) →
      ∀ p ∈ l.foldl (fun acc e => addToCategory acc e.category e.amount) acc,
        0 < p.2 by
    exact haux es h [] (by simp)
  intro l
  induction l with
  | nil => intro _ acc hacc p hp; exact hacc p hp
  | cons e rest ih =>
      intro hl acc hacc p hp
      simp only [List.foldl_cons] at hp
      refine ih (fun e he => hl e (List.mem_cons_of_mem _ he)) _ ?_ p hp
      exact addToCategory_pos e.category e.amount
        (hl e (List.mem_cons_self _ _)) acc hacc

/-- Characterization of the strict-greater fold: either nothing beat the
starting accumulator, or the result is the first entry of the list attaining
the running maximum, every entry is bounded by it, and all entries before it
are strictly smaller. -/
lemma foldl_highestStep_spec : ∀ (entries : List (String × ℚ))
    (acc : String × ℚ),
    (entries.foldl highestStep acc = acc ∧ ∀ p ∈ entries, p.2 ≤ acc.2) ∨
    (acc.2 < (entries.foldl highestStep acc).2 ∧
      (∀ p ∈ entries, p.2 ≤ (entries.foldl highestStep acc).2) ∧
      ∃ l1 l2, entries = l1 ++ (entries.foldl highestStep acc) :: l2 ∧
        ∀ p ∈ l1, p.2 < (entries.foldl highestStep acc).2) := by
  intro entries
  induction entries with
  | nil => intro acc; exact Or.inl ⟨rfl, by simp⟩
  | cons e rest ih =>
      intro acc
      by_cases h : acc.2 < e.2
      · have hstep : (e :: rest).foldl highestStep acc
            = rest.foldl highestStep e := by
          simp [List.foldl_cons, highestStep, h]
        rw [hstep]
        rcases ih e with ⟨heq, hle⟩ | ⟨hlt, hle, l1, l2, hsplit, hfirst⟩
        · rw [heq]
          refine Or.inr ⟨h, ?_, [], rest, by simp, by simp⟩
          intro p hp
          rcases List.mem_cons.1 hp with rfl | hp
          · exact le_refl _
          · exact hle p hp
        · refine Or.inr ⟨h.trans hlt, ?_, e :: l1, l2, ?_, ?_⟩
          · intro p hp
            rcases List.mem_cons.1 hp with rfl | hp
            · exact hlt.le
            · exact hle p hp
          · rw [List.cons_append, ← hsplit]
          · intro p hp
            rcases List.mem_cons.1 hp with rfl | hp
            · exact hlt
            · exact hfirst p hp
      · have hstep : (e :: rest).foldl highestStep acc
            = rest.foldl highestStep acc := by
          simp [List.foldl_cons, highestStep, h]
        rw [hstep]
        push_neg at h
        rcases ih acc with ⟨heq, hle⟩ | ⟨hlt, hle, l1, l2, hsplit, hfirst⟩
        · rw [heq]
          refine Or.inl ⟨rfl, ?_⟩
          intro p hp
          rcases List.mem_cons.1 hp with rfl | hp
          · exact h
          · exact hle p hp
        · refine Or.inr ⟨hlt, ?_, e :: l1, l2, ?_, ?_⟩
          · intro p hp
            rcases List.mem_cons.1 hp with rfl | hp
            · exact h.trans hlt.le
            · exact hle p hp
          · rw [List.cons_append, ← hsplit]
          · intro p hp
            rcases List.mem_cons.1 hp with rfl | hp
            · exact lt_of_le_of_lt h hlt
            · exact hfirst p hp

/-! Claim theorems. -/

/-- C2: for every list of current-month expenses (and any other dashboard
inputs), the sum of the values of the expensesByCategory map produced by the
dashboard aggregation equals totalExpenses, the sum of the amounts of those
expenses: grouping by category partitions the total exactly. -/
theorem dashboard_byCategory_partitions_total (income : Option Income)
    (expenses prevExpenses : List Expense) (goal : Option SavingsGoal)
    (now : ℚ) :
    (((dashboard income expenses prevExpenses goal now).expensesByCategory).map
        Prod.snd).sum
      = (dashboard income expenses prevExpenses goal now).totalExpenses := by
  simpa [dashboard] using sum_expensesByCategory expenses

/-- C4: whenever the income is absent or has amount zero, the dashboard
aggregation returns percentOfIncome = 0 and savingsPercentOfIncome = 0 for
every expense list; the guarded definition takes the constant-zero branch, so
the division by incomeAmount is not performed. -/
theorem dashboard_percent_zero_income (expenses prevExpenses : List Expense)
    (goal : Option SavingsGoal) (now : ℚ) :
    (dashboard none expenses prevExpenses goal now).percentOfIncome = 0 ∧
    (dashboard none expenses prevExpenses goal now).savingsPercentOfIncome
      = 0 ∧
    (dashboard (some ⟨0⟩) expenses prevExpenses goal now).percentOfIncome
      = 0 ∧
    (dashboard (some ⟨0⟩) expenses prevExpenses goal
        now).savingsPercentOfIncome = 0 := by
  simp [dashboard, incomeAmountOf, percentOfIncome, savingsPercentOfIncome]

/-- C5: for every deadline and now timestamp, including deadlines in the past
where daysLeft is negative, monthsLeft = max(1, ceil(daysLeft / 30)) is at
least 1; hence the divisor in monthlySavingsNeeded, produced by the goal
pacing calculation, is a nonzero positive number. -/
theorem monthsLeft_ge_one (deadlineTime now : ℚ) (g : SavingsGoal) (ns : ℚ) :
    1 ≤ monthsLeft (daysLeft deadlineTime now) ∧
    ∃ gp, computeGoalProgress (some g) ns now = some gp ∧
      1 ≤ gp.monthsLeft ∧ ((gp.monthsLeft : ℚ)) ≠ 0 ∧
      gp.monthlySavingsNeeded = (g.targetAmount - ns) / (gp.monthsLeft : ℚ) := by
  refine ⟨le_max_left 1 _, ⟨_, rfl, le_max_left 1 _, ?_, rfl⟩⟩
  show ((monthsLeft (daysLeft g.deadlineTime now) : ℤ) : ℚ) ≠ 0
  have h0 : (0 : ℤ) < monthsLeft (daysLeft g.deadlineTime now) :=
    lt_of_lt_of_le one_pos (le_max_left 1 _)
  exact_mod_cast ne_of_gt h0

/-- C9: the dashboard aggregation and goal pacing computation is a total
function of its inputs (it is defined for every combination of optional
income, expense lists of any size and optional goal, and being a Lean
function it cannot throw), and every missing input degenerates to a zero,
empty or null default: absent income gives incomeAmount 0 and zero
percentages, an empty current month gives total 0, empty grouping and empty
highest category, an empty previous month gives previous total 0, an absent
goal gives a null goal progress, and a present goal always yields some goal
progress. -/
theorem dashboard_total_with_defaults (expenses prevExpenses : List Expense)
    (income : Option Income) (goal : Option SavingsGoal) (now : ℚ) :
    (dashboard none expenses prevExpenses goal now).incomeAmount = 0 ∧
    (dashboard none expenses prevExpenses goal now).percentOfIncome = 0 ∧
    (dashboard none expenses prevExpenses goal now).savingsPercentOfIncome
      = 0 ∧
    (dashboard income [] prevExpenses goal now).totalExpenses = 0 ∧
    (dashboard income [] prevExpenses goal now).expensesByCategory = [] ∧
    (dashboard income [] prevExpenses goal now).highestCategory = "" ∧
    (dashboard income [] prevExpenses goal now).highestAmount = 0 ∧
    (dashboard income expenses [] goal now).previousTotalExpenses = 0 ∧
    (dashboard income expenses prevExpenses none now).goal = none ∧
    (∀ sg : SavingsGoal, ∃ gp,
      (dashboard income expenses prevExpenses (some sg) now).goal
        = some gp) := by
  refine ⟨rfl, ?_, ?_, rfl, rfl, rfl, rfl, rfl, rfl, fun sg => ⟨_, rfl⟩⟩ <;>
    simp [dashboard, incomeAmountOf, percentOfIncome, savingsPercentOfIncome]

/-- C10: for every income (and any other inputs), the savingsTrend computed
by the dashboard aggregation equals previousTotalExpenses - totalExpenses;
both periods reuse the same current income figure, so it cancels and the
trend is independent of the income. -/
theorem dashboard_savingsTrend_income_cancels (income income2 : Option Income)
    (expenses prevExpenses : List Expense) (goal : Option SavingsGoal)
    (now : ℚ) :
    (dashboard income expenses prevExpenses goal now).savingsTrend
      = (dashboard income expenses prevExpenses goal now).previousTotalExpenses
        - (dashboard income expenses prevExpenses goal now).totalExpenses ∧
    (dashboard income expenses prevExpenses goal now).savingsTrend
      = (dashboard income2 expenses prevExpenses goal now).savingsTrend := by
  constructor
  · show (incomeAmountOf income - totalExpenses expenses)
        - (incomeAmountOf income - totalExpenses prevExpenses)
        = totalExpenses prevExpenses - totalExpenses expenses
    ring
  · show (incomeAmountOf income - totalExpenses expenses)
        - (incomeAmountOf income - totalExpenses prevExpenses)
        = (incomeAmountOf income2 - totalExpenses expenses)
          - (incomeAmountOf income2 - totalExpenses prevExpenses)
    ring

/-- C1 counterexample: the claim that percentComplete always lies in [0, 100]
fails for negative saved amounts: with targetAmount = 100 > 0 and
netSavings = -100 the goal pacing calculation produces percentComplete =
min(100, floor(-100/100*100)) = -100, which is below 0, and it propagates to
the goal progress object. -/
theorem percentComplete_below_zero_counterexample :
    (0 : ℚ) < 100 ∧ percentComplete (-100) 100 = -100 ∧
    percentComplete (-100) 100 < 0 ∧
    ∃ gp, computeGoalProgress (some ⟨none, 100, 86400000⟩) (-100) 0 = some gp ∧
      gp.percentComplete = -100 := by
  have hp : percentComplete (-100) 100 = -100 := by
    norm_num [percentComplete]
  refine ⟨by norm_num, hp, by rw [hp]; norm_num, ⟨_, rfl, ?_⟩⟩
  show percentComplete (-100) 100 = -100
  exact hp

/-- C1 amended: for every savings goal with targetAmount > 0 and every
netSavings value, percentComplete = min(100, floor(saved/targetAmount*100))
is clamped above at 100 but not below at 0: it lies in [0, 100] whenever
saved is nonnegative, and can be negative when saved is negative. -/
theorem percentComplete_bounds (saved targetAmount : ℚ)
    (h : 0 < targetAmount) :
    percentComplete saved targetAmount ≤ 100 ∧
    (0 ≤ saved → 0 ≤ percentComplete saved targetAmount ∧
      percentComplete saved targetAmount ≤ 100) := by
  refine ⟨min_le_left _ _, fun hs => ⟨?_, min_le_left _ _⟩⟩
  have hq : (0 : ℚ) ≤ saved / targetAmount * 100 := by positivity
  exact le_min (by norm_num) (Int.floor_nonneg.2 hq)

/-- C1 amended, witness at saved = 50, targetAmount = 100. -/
theorem percentComplete_bounds_witness :
    (0 : ℚ) < 100 ∧
    (percentComplete 50 100 ≤ 100 ∧
      (0 ≤ (50 : ℚ) → 0 ≤ percentComplete 50 100 ∧
        percentComplete 50 100 ≤ 100)) :=
  ⟨by norm_num, percentComplete_bounds 50 100 (by norm_num)⟩

/-- C3 counterexample: the currency round-trip fails beyond the two-decimal
rounding tolerance: converting 100 USD to EUR gives 95.00, converting back
gives 99.75, which differs from 100 by 0.25, more than one cent. -/
theorem convertCurrency_roundtrip_counterexample :
    convertCurrency 100 USD EUR = 95 ∧
    convertCurrency (convertCurrency 100 USD EUR) EUR USD = 399 / 4 ∧
    |convertCurrency (convertCurrency 100 USD EUR) EUR USD - 100|
      > 1 / 100 := by
  have h1 : convertCurrency 100 USD EUR = 95 := by
    simp +decide only [convertCurrency, conversionRate]
    norm_num [round2, round_eq]
  have h2 : convertCurrency (convertCurrency 100 USD EUR) EUR USD
      = 399 / 4 := by
    rw [h1]
    simp +decide only [convertCurrency, conversionRate]
    norm_num [round2, round_eq]
  refine ⟨h1, h2, ?_⟩
  rw [h2]
  norm_num [abs_of_nonpos]

/-- C3 amended: the round trip is exact when the two currencies are equal
(the amount is returned unchanged) and, for amounts with at most two decimal
places, on the USD-LKR and EUR-LKR pairs; it fails on the USD-EUR pair, whose
rate product is 0.9975 rather than 1, with an error of 0.25 percent of the
amount (see the counterexample). -/
theorem convertCurrency_roundtrip_amended (x : ℚ) (A : Currency) (k : ℤ) :
    convertCurrency (convertCurrency x A A) A A = x ∧
    convertCurrency (convertCurrency ((k : ℚ) / 100) USD LKR) LKR USD
      = (k : ℚ) / 100 ∧
    convertCurrency (convertCurrency ((k : ℚ) / 100) EUR LKR) LKR EUR
      = (k : ℚ) / 100 := by
  refine ⟨by simp [convertCurrency], ?_, ?_⟩
  · have h1 : convertCurrency ((k : ℚ) / 100) USD LKR = (k : ℚ) / 100 * 300 := by
      simp +decide only [convertCurrency, conversionRate]
      exact round2_of_mul_int _ (300 * k) (by push_cast; ring)
    rw [h1]
    simp +decide only [convertCurrency, conversionRate]
    rw [show (k : ℚ) / 100 * 300 * (1 / 300) = (k : ℚ) / 100 by ring]
    exact round2_of_mul_int _ k (by ring)
  · have h1 : convertCurrency ((k : ℚ) / 100) EUR LKR = (k : ℚ) / 100 * 330 := by
      simp +decide only [convertCurrency, conversionRate]
      exact round2_of_mul_int _ (330 * k) (by push_cast; ring)
    rw [h1]
    simp +decide only [convertCurrency, conversionRate]
    rw [show (k : ℚ) / 100 * 330 * (1 / 330) = (k : ℚ) / 100 by ring]
    exact round2_of_mul_int _ k (by ring)

/-- C8 counterexample: when the two currencies are equal, convertCurrency
returns the amount unchanged, so an input with three decimal places comes
back unrounded: convertCurrency(1.005, USD, USD) = 1.005, whose two-decimal
rounding is 1.01, not itself. -/
theorem convertCurrency_same_unrounded_counterexample :
    convertCurrency (1005 / 1000) USD USD = 1005 / 1000 ∧
    round2 (convertCurrency (1005 / 1000) USD USD)
      ≠ convertCurrency (1005 / 1000) USD USD := by
  have h1 : convertCurrency ((1005 : ℚ) / 1000) USD USD = 1005 / 1000 := by
    simp [convertCurrency]
  have h2 : round2 ((1005 : ℚ) / 1000) = 101 / 100 := by
    norm_num [round2, round_eq]
  exact ⟨h1, by rw [h1, h2]; norm_num⟩

/-- C8 amended: for every amount and every pair of distinct supported
currencies the result of convertCurrency is rounded to two decimal places
(it is a fixed point of round2); when the currencies are equal the amount is
returned unchanged, hence rounded only if it already was. -/
theorem convertCurrency_rounds_distinct (x : ℚ) (f t : Currency)
    (h : f ≠ t) :
    round2 (convertCurrency x f t) = convertCurrency x f t ∧
    convertCurrency x f f = x := by
  constructor
  · rw [convertCurrency, if_neg h]
    exact round2_round2 _
  · simp [convertCurrency]

/-- C8 amended, witness at amount 100, USD to EUR. -/
theorem convertCurrency_rounds_distinct_witness :
    USD ≠ EUR ∧
    (round2 (convertCurrency 100 USD EUR) = convertCurrency 100 USD EUR ∧
      convertCurrency 100 USD USD = 100) :=
  ⟨by decide, convertCurrency_rounds_distinct 100 USD EUR (by decide)⟩

/-- C6: for a goal with targetAmount 12000, netSavings 1000 and a deadline
exactly 90 days after now, the goal pacing calculation returns monthsLeft 3,
monthlySavingsNeeded (12000 - 1000) / 3 (whose two-decimal rounding is
3666.67) and onTrack false; and in general onTrack holds iff netSavings is at
least monthlySavingsNeeded. -/
theorem goal_pacing_scenario3 (now : ℚ) :
    computeGoalProgress (some ⟨none, 12000, now + 90 * 86400000⟩) 1000 now
      = some ⟨1000, 12000, 8, 90, 3, 11000 / 3, false⟩ ∧
    round2 (11000 / 3) = 366667 / 100 ∧
    ∀ (g : SavingsGoal) (ns t : ℚ), ∃ gp,
      computeGoalProgress (some g) ns t = some gp ∧
      (gp.onTrack = true ↔ gp.monthlySavingsNeeded ≤ ns) := by
  refine ⟨?_, ?_, ?_⟩
  · have hd : daysLeft (now + 90 * 86400000) now = 90 := by
      unfold daysLeft
      rw [show (now + 90 * 86400000 - now) / 86400000 = (90 : ℚ) by ring]
      norm_num
    have hm : monthsLeft 90 = 3 := by norm_num [monthsLeft]
    have hp : percentComplete 1000 12000 = 8 := by norm_num [percentComplete]
    have hstep : computeGoalProgress
        (some ⟨none, 12000, now + 90 * 86400000⟩) 1000 now
        = some ⟨1000, 12000, percentComplete 1000 12000,
            daysLeft (now + 90 * 86400000) now,
            monthsLeft (daysLeft (now + 90 * 86400000) now),
            ((12000 : ℚ) - 1000)
              / ((monthsLeft (daysLeft (now + 90 * 86400000) now) : ℤ) : ℚ),
            decide ((1000 : ℚ) ≥ ((12000 : ℚ) - 1000)
              / ((monthsLeft (daysLeft (now + 90 * 86400000) now) : ℤ) : ℚ))⟩ :=
      rfl
    rw [hstep, hd, hm, hp]
    norm_num [decide_eq_false_iff_not]
  · norm_num [round2, round_eq]
  · intro g ns t
    refine ⟨_, rfl, ?_⟩
    show decide (ns ≥ (g.targetAmount - ns)
        / ((monthsLeft (daysLeft g.deadlineTime t) : ℤ) : ℚ)) = true ↔ _
    simp [ge_iff_le, decide_eq_true_eq]

/-- C7: for every list of current-month expenses with positive amounts, the
dashboard aggregation returns highestCategory and highestAmount equal to the
first entry of expensesByCategory, in insertion order, whose summed amount is
maximal: the pair is an entry of the grouping, every grouped amount is
bounded by it, every entry before it is strictly smaller (so ties go to the
first-encountered category), and on the empty list the grouping is empty and
the scan returns the empty category with amount 0; the dashboard fields are
exactly this scan. -/
theorem dashboard_highest_correct (es : List Expense)
    (hpos : ∀ e ∈ es, 0 < e.amount) (hne : es ≠ []) :
    (expensesByCategory [] = [] ∧ findHighest [] = ("", 0)) ∧
    (∀ (income : Option Income) (ps : List Expense) (g : Option SavingsGoal)
      (now : ℚ),
      (dashboard income es ps g now).highestCategory
          = (findHighest (expensesByCategory es)).1 ∧
      (dashboard income es ps g now).highestAmount
          = (findHighest (expensesByCategory es)).2) ∧
    findHighest (expensesByCategory es) ∈ expensesByCategory es ∧
    (∀ p ∈ expensesByCategory es,
      p.2 ≤ (findHighest (expensesByCategory es)).2) ∧
    ∃ l1 l2, expensesByCategory es
        = l1 ++ findHighest (expensesByCategory es) :: l2 ∧
      ∀ p ∈ l1, p.2 < (findHighest (expensesByCategory es)).2 := by
  refine ⟨⟨rfl, rfl⟩, fun _ _ _ _ => ⟨rfl, rfl⟩, ?_⟩
  simp only [findHighest]
  rcases foldl_highestStep_spec (expensesByCategory es) ("", 0) with
    ⟨heq, hle⟩ | ⟨hlt, hle, l1, l2, hsplit, hfirst⟩
  · exfalso
    have hne2 := expensesByCategory_ne_nil es hne
    obtain ⟨p, hp⟩ := List.exists_mem_of_ne_nil _ hne2
    have hp2 := expensesByCategory_pos es hpos p hp
    have hb := hle p hp
    exact absurd hp2 (not_lt.2 hb)
  · refine ⟨?_, hle, l1, l2, hsplit, hfirst⟩
    nth_rewrite 1 [hsplit]
    exact List.mem_append_right _ (List.mem_cons_self _ _)

/-- C7 witness, at the expense list of Scenario 1: Food 800, Rent 1500,
Food 200. -/
theorem dashboard_highest_correct_witness :
    (expensesByCategory [] = [] ∧ findHighest [] = ("", 0)) ∧
    (∀ (income : Option Income) (ps : List Expense) (g : Option SavingsGoal)
      (now : ℚ),
      (dashboard income [⟨800, "Food"⟩, ⟨1500, "Rent"⟩, ⟨200, "Food"⟩] ps g
          now).highestCategory
          = (findHighest (expensesByCategory
              [⟨800, "Food"⟩, ⟨1500, "Rent"⟩, ⟨200, "Food"⟩])).1 ∧
      (dashboard income [⟨800, "Food"⟩, ⟨1500, "Rent"⟩, ⟨200, "Food"⟩] ps g
          now).highestAmount
          = (findHighest (expensesByCategory
              [⟨800, "Food"⟩, ⟨1500, "Rent"⟩, ⟨200, "Food"⟩])).2) ∧
    findHighest (expensesByCategory
        [⟨800, "Food"⟩, ⟨1500, "Rent"⟩, ⟨200, "Food"⟩])
      ∈ expensesByCategory [⟨800, "Food"⟩, ⟨1500, "Rent"⟩, ⟨200, "Food"⟩] ∧
    (∀ p ∈ expensesByCategory [⟨800, "Food"⟩, ⟨1500, "Rent"⟩, ⟨200, "Food"⟩],
      p.2 ≤ (findHighest (expensesByCategory
        [⟨800, "Food"⟩, ⟨1500, "Rent"⟩, ⟨200, "Food"⟩])).2) ∧
    ∃ l1 l2, expensesByCategory [⟨800, "Food"⟩, ⟨1500, "Rent"⟩, ⟨200, "Food"⟩]
        = l1 ++ findHighest (expensesByCategory
            [⟨800, "Food"⟩, ⟨1500, "Rent"⟩, ⟨200, "Food"⟩]) :: l2 ∧
      ∀ p ∈ l1, p.2 < (findHighest (expensesByCategory
        [⟨800, "Food"⟩, ⟨1500, "Rent"⟩, ⟨200, "Food"⟩])).2 :=
  dashboard_highest_correct [⟨800, "Food"⟩, ⟨1500, "Rent"⟩, ⟨200, "Food"⟩]
    (by decide) (by decide)

end WealthWise
